import Mathlib

/-!
# Verification of the Apache Airlines seat-booking system (seating.py)

Shallow embedding of the program's state and operations:

* the in-memory `seats` dictionary is an association list from seat-id
  strings to status strings ("F" = free, "S" = storage, otherwise the
  value is the booking reference of the occupant);
* the SQLite `bookings` table is a list of `BookingRecord`s; the
  `PRIMARY KEY booking_ref` and `UNIQUE seat_id` constraints are enforced
  by `dbInsert`, which fails (models `sqlite3.IntegrityError`) when
  either column value is already present;
* the random source of `random.choices(string.ascii_uppercase +
  string.digits, k=8)` is an explicit stream of draws, each draw being a
  function from the 8 character positions to an index into the
  36-character alphabet.

Console I/O is dropped: each operation takes its inputs as arguments and
returns an outcome value in place of the printed message.
-/

set_option maxRecDepth 20000

namespace Seating

/-- The value stored for each seat: "F", "S", or a booking reference. -/
abbrev SeatVal := String

/-- Association-list model of the Python `seats` dictionary
(insertion-ordered, unique keys by construction). -/
abbrev SeatMap := List (String × SeatVal)

/-- Dictionary lookup `seats[seat_id]` (partial, hence `Option`);
`seatsGet m k ≠ none` also models the membership test `seat_id in seats`. -/
def seatsGet (m : SeatMap) (k : String) : Option SeatVal :=
  (m.find? (fun p => p.1 = k)).map (fun p => p.2)

/-- Dictionary assignment `seats[seat_id] = v`: replaces the value at an
existing key, appends a new entry otherwise (Python dict semantics). -/
def seatsSet (m : SeatMap) (k : String) (v : SeatVal) : SeatMap :=
  if m.any (fun p => p.1 = k) then
    m.map (fun p => if p.1 = k then (k, v) else p)
  else
    m ++ [(k, v)]

/-- One row of the SQLite `bookings` table. -/
structure BookingRecord where
  booking_ref : String
  passport_number : String
  first_name : String
  last_name : String
  seat_row : Nat
  seat_column : String
  seat_id : String
deriving Repr, DecidableEq

/-- The `booking_ref` column (PRIMARY KEY). -/
def dbRefs (db : List BookingRecord) : List String :=
  db.map (fun r => r.booking_ref)

/-- The `seat_id` column (UNIQUE). -/
def dbSeatIds (db : List BookingRecord) : List String :=
  db.map (fun r => r.seat_id)

/-- `INSERT INTO bookings ...`: fails (`none`, modelling
`sqlite3.IntegrityError`) when the PRIMARY KEY `booking_ref` or the
UNIQUE `seat_id` is already present; otherwise appends the row. -/
def dbInsert (db : List BookingRecord) (r : BookingRecord) :
    Option (List BookingRecord) :=
  if r.booking_ref ∈ dbRefs db ∨ r.seat_id ∈ dbSeatIds db then none
  else some (db ++ [r])

/-- `DELETE FROM bookings WHERE booking_ref = ?`. -/
def dbDeleteRef (db : List BookingRecord) (ref : String) : List BookingRecord :=
  db.filter (fun r => r.booking_ref ≠ ref)

/-- Joint program state: the in-memory `seats` dictionary and the
persistent `bookings` table. -/
structure SysState where
  seats : SeatMap
  db : List BookingRecord
deriving Repr, DecidableEq

/-! ## Seating layout setup (module-level loops of seating.py) -/

/-- `front_rows = range(1, 81)`. -/
def front_rows : List Nat := List.range' 1 80

/-- `front_columns = ['A', 'B', 'C']`. -/
def front_columns : List Char := ['A', 'B', 'C']

/-- `rear_rows = range(1, 81)`. -/
def rear_rows : List Nat := List.range' 1 80

/-- `rear_columns = ['D', 'E', 'F']`. -/
def rear_columns : List Char := ['D', 'E', 'F']

/-- `seat_id = str(row) + col`. -/
def seatIdStr (row : Nat) (col : Char) : String :=
  toString row ++ String.singleton col

/-- The two module-level initialization loops: front-section seats are
"F"; rear-section seats are "S" in rows 77 and 78 and "F" otherwise. -/
def initSeats : SeatMap :=
  (front_rows.flatMap fun row => front_columns.map fun col =>
    (seatIdStr row col, "F"))
  ++ (rear_rows.flatMap fun row => rear_columns.map fun col =>
    (seatIdStr row col, if row = 77 ∨ row = 78 then "S" else "F"))

/-- The six storage seat identifiers (rows 77–78, columns D–F). -/
def storageIds : List String := ["77D", "77E", "77F", "78D", "78E", "78F"]

/-! ## Booking-reference generation -/

/-- `string.ascii_uppercase + string.digits`. -/
def refAlphabet : List Char :=
  "ABCDEFGHIJKLMNOPQRSTUVWXYZ0123456789".toList

theorem refAlphabet_length : refAlphabet.length = 36 := by decide

/-- One character picked by `random.choices`. -/
def refChar (i : Fin 36) : Char :=
  refAlphabet.get (Fin.cast refAlphabet_length.symm i)

/-- One candidate produced by
`''.join(random.choices(string.ascii_uppercase + string.digits, k=8))`:
a draw assigns each of the 8 positions an alphabet index. -/
def mkCandidate (draw : Fin 8 → Fin 36) : String :=
  String.mk ((List.finRange 8).map (fun p => refChar (draw p)))

/-- `generate_booking_ref`: walk the random stream until a candidate has
`COUNT(*) = 0` among the persisted `booking_ref`s; `none` models the
`while True` loop running past the modelled stream. -/
def generate_booking_ref (db : List BookingRecord) :
    List (Fin 8 → Fin 36) → Option String
  | [] => none
  | draw :: rest =>
    let booking_ref := mkCandidate draw
    if db.countP (fun r => r.booking_ref == booking_ref) = 0 then
      some booking_ref
    else
      generate_booking_ref db rest

/-! ## Operations -/

/-- Loop body of `load_existing_bookings`: `if seat_id in seats:
seats[seat_id] = booking_ref`. -/
def reconcileStep (m : SeatMap) (r : BookingRecord) : SeatMap :=
  if (seatsGet m r.seat_id).isSome then seatsSet m r.seat_id r.booking_ref
  else m

/-- `load_existing_bookings`: for each persisted row (in table order),
if its seat id is a key of `seats`, overwrite that seat's value with the
booking reference. -/
def load_existing_bookings (st : SysState) : SysState :=
  { st with seats := st.db.foldl reconcileStep st.seats }

/-- Result of `check_availability` (the printed classification). -/
inductive QueryResult where
  | notFound
  | free
  | storage
  | booked (ref : String)
deriving Repr, DecidableEq

/-- `check_availability`: pure classification of a seat id. -/
def check_availability (st : SysState) (seat_id : String) : QueryResult :=
  match seatsGet st.seats seat_id with
  | none => .notFound
  | some status =>
    if status = "F" then .free
    else if status = "S" then .storage
    else .booked status

/-- Traveller details prompted for by `book_seat`. -/
structure PassengerInfo where
  passport_number : String
  first_name : String
  last_name : String
deriving Repr, DecidableEq

/-- Outcome of `book_seat` (the printed message / control path taken). -/
inductive BookOutcome where
  | success (ref : String)
  | conflict
  | storageArea
  | alreadyBooked (ref : String)
  | invalidRow
  | notFound
deriving Repr, DecidableEq

/-- Models Python `int(s)` restricted to unsigned decimal strings:
succeeds exactly on nonempty all-digit strings, which covers every row
prefix `str(row)` the program constructs.  (Python `int` also accepts
signs and surrounding whitespace; success of this model implies success
of `int`.) -/
def parseRow (s : String) : Option Nat :=
  if s.data ≠ [] ∧ s.data.all Char.isDigit then
    some (s.data.foldl (fun n c => n * 10 + (c.toNat - '0'.toNat)) 0)
  else none

/-- The row inserted by `book_seat`: `col_part = seat_id[-1]` kept as a
one-character string (the `seat_column` TEXT column). -/
def bookRecord (booking_ref : String) (info : PassengerInfo)
    (seat_row : Nat) (seat_id : String) : BookingRecord :=
  ⟨booking_ref, info.passport_number, info.first_name, info.last_name,
    seat_row, seat_id.takeRight 1, seat_id⟩

/-- `book_seat`, with the console inputs as arguments and the random
source explicit.  `none` arises only when the seat is free and the
random stream is exhausted (the Python call would not return). -/
def book_seat (st : SysState) (seat_id : String) (info : PassengerInfo)
    (stream : List (Fin 8 → Fin 36)) : Option (SysState × BookOutcome) :=
  match seatsGet st.seats seat_id with
  | none => some (st, .notFound)
  | some status =>
    if status = "F" then
      match generate_booking_ref st.db stream with
      | none => none
      | some booking_ref =>
        let row_part := seat_id.dropRight 1
        match parseRow row_part with
        | none => some (st, .invalidRow)
        | some seat_row =>
          let seats1 := seatsSet st.seats seat_id booking_ref
          match dbInsert st.db (bookRecord booking_ref info seat_row seat_id) with
          | some db1 => some (⟨seats1, db1⟩, .success booking_ref)
          | none => some (⟨seatsSet seats1 seat_id "F", st.db⟩, .conflict)
    else if status = "S" then
      some (st, .storageArea)
    else
      some (st, .alreadyBooked status)

/-- Outcome of `free_seat` (the printed message / control path taken). -/
inductive FreeOutcome where
  | success
  | alreadyFree
  | storageArea
  | notFound
deriving Repr, DecidableEq

/-- `free_seat`, with the console input as an argument. -/
def free_seat (st : SysState) (seat_id : String) : SysState × FreeOutcome :=
  match seatsGet st.seats seat_id with
  | none => (st, .notFound)
  | some status =>
    if status ≠ "F" ∧ status ≠ "S" then
      (⟨seatsSet st.seats seat_id "F", dbDeleteRef st.db status⟩, .success)
    else if status = "F" then
      (st, .alreadyFree)
    else
      (st, .storageArea)

/-! ## Lemmas about the dictionary model -/

theorem seatsGet_nil (k : String) : seatsGet [] k = none := rfl

theorem seatsGet_cons (p : String × SeatVal) (t : SeatMap) (k : String) :
    seatsGet (p :: t) k = if p.1 = k then some p.2 else seatsGet t k := by
  by_cases hp : p.1 = k
  · simp [seatsGet, List.find?, hp]
  · simp [seatsGet, List.find?, hp]

theorem seatsGet_eq_none (m : SeatMap) (k : String) :
    seatsGet m k = none ↔ k ∉ m.map Prod.fst := by
  induction m with
  | nil => simp [seatsGet]
  | cons p t ih =>
    rw [seatsGet_cons, List.map_cons, List.mem_cons]
    by_cases hp : p.1 = k
    · simp [hp]
    · rw [if_neg hp, ih]
      constructor
      · intro h hc
        rcases hc with hc | hc
        · exact hp hc.symm
        · exact h hc
      · intro h hc
        exact h (Or.inr hc)

theorem seatsGet_mem_keys {m : SeatMap} {k : String} {v : SeatVal}
    (h : seatsGet m k = some v) : k ∈ m.map Prod.fst := by
  by_contra hk
  exact Option.noConfusion (h.symm.trans ((seatsGet_eq_none m k).2 hk))

theorem seatsAny_iff (m : SeatMap) (k : String) :
    (m.any fun p => p.1 = k) = true ↔ k ∈ m.map Prod.fst := by
  simp [List.any_eq_true, List.mem_map]

theorem seatsSet_of_mem {m : SeatMap} {k : String} (v : SeatVal)
    (h : k ∈ m.map Prod.fst) :
    seatsSet m k v = m.map (fun p => if p.1 = k then (k, v) else p) := by
  unfold seatsSet
  rw [if_pos ((seatsAny_iff m k).2 h)]

theorem seatsSet_of_not_mem {m : SeatMap} {k : String} (v : SeatVal)
    (h : k ∉ m.map Prod.fst) :
    seatsSet m k v = m ++ [(k, v)] := by
  unfold seatsSet
  rw [if_neg]
  intro hc
  exact h ((seatsAny_iff m k).1 hc)

theorem seatsGet_append (m₁ m₂ : SeatMap) (k : String) :
    seatsGet (m₁ ++ m₂) k =
      match seatsGet m₁ k with
      | some v => some v
      | none => seatsGet m₂ k := by
  induction m₁ with
  | nil => simp [seatsGet_nil]
  | cons p t ih =>
    rw [List.cons_append, seatsGet_cons, seatsGet_cons]
    by_cases hp : p.1 = k <;> simp [hp, ih]

theorem seatsGet_mapSet_self (m : SeatMap) (k : String) (v : SeatVal)
    (h : k ∈ m.map Prod.fst) :
    seatsGet (m.map (fun p => if p.1 = k then (k, v) else p)) k = some v := by
  induction m with
  | nil => simp at h
  | cons p t ih =>
    by_cases hp : p.1 = k
    · simp [List.map_cons, if_pos hp, seatsGet_cons]
    · have ht : k ∈ t.map Prod.fst := by
        rw [List.map_cons, List.mem_cons] at h
        exact h.resolve_left (fun hc => hp hc.symm)
      simp only [List.map_cons, if_neg hp, seatsGet_cons, ih ht]

theorem seatsGet_mapSet_ne (m : SeatMap) {k k' : String} (v : SeatVal)
    (hne : k' ≠ k) :
    seatsGet (m.map (fun p => if p.1 = k then (k, v) else p)) k' =
      seatsGet m k' := by
  induction m with
  | nil => rfl
  | cons p t ih =>
    by_cases hp : p.1 = k
    · simp only [List.map_cons, if_pos hp, seatsGet_cons, ih]
      rw [if_neg (fun hc : k = k' => hne hc.symm),
        if_neg (fun hc : p.1 = k' => hne (hc.symm.trans hp))]
    · simp only [List.map_cons, if_neg hp, seatsGet_cons, ih]

theorem seatsGet_seatsSet_self (m : SeatMap) (k : String) (v : SeatVal) :
    seatsGet (seatsSet m k v) k = some v := by
  by_cases h : k ∈ m.map Prod.fst
  · rw [seatsSet_of_mem v h]
    exact seatsGet_mapSet_self m k v h
  · rw [seatsSet_of_not_mem v h, seatsGet_append]
    rw [(seatsGet_eq_none m k).2 h]
    simp [seatsGet_cons]

theorem seatsGet_seatsSet_ne (m : SeatMap) {k k' : String} (v : SeatVal)
    (hne : k' ≠ k) : seatsGet (seatsSet m k v) k' = seatsGet m k' := by
  by_cases h : k ∈ m.map Prod.fst
  · rw [seatsSet_of_mem v h]
    exact seatsGet_mapSet_ne m v hne
  · rw [seatsSet_of_not_mem v h, seatsGet_append]
    cases hg : seatsGet m k' with
    | some w => rfl
    | none =>
      show seatsGet [(k, v)] k' = none
      rw [seatsGet_cons, if_neg (fun hc : k = k' => hne hc.symm), seatsGet_nil]

theorem seatsGet_isSome_iff (m : SeatMap) (k : String) :
    (seatsGet m k).isSome = true ↔ k ∈ m.map Prod.fst := by
  constructor
  · intro h
    cases hg : seatsGet m k with
    | none => rw [hg] at h; cases h
    | some v => exact seatsGet_mem_keys hg
  · intro h
    cases hg : seatsGet m k with
    | none => exact absurd h ((seatsGet_eq_none m k).1 hg)
    | some v => rfl

theorem seatsSet_keys_of_mem {m : SeatMap} {k : String} (v : SeatVal)
    (h : k ∈ m.map Prod.fst) :
    (seatsSet m k v).map Prod.fst = m.map Prod.fst := by
  rw [seatsSet_of_mem v h, List.map_map]
  refine List.map_congr_left ?_
  intro p hp
  by_cases hpk : p.1 = k
  · simp [hpk, Function.comp]
  · simp [hpk, Function.comp]

theorem seatsSet_seatsSet (m : SeatMap) (k : String) (v w : SeatVal) :
    seatsSet (seatsSet m k v) k w = seatsSet m k w := by
  by_cases h : k ∈ m.map Prod.fst
  · have h2 : k ∈ (seatsSet m k v).map Prod.fst := by
      rw [seatsSet_keys_of_mem v h]
      exact h
    rw [seatsSet_of_mem w h2, seatsSet_of_mem v h, seatsSet_of_mem w h,
      List.map_map]
    refine List.map_congr_left ?_
    intro p hp
    by_cases hpk : p.1 = k <;> simp [hpk, Function.comp]
  · have h1 : seatsSet m k v = m ++ [(k, v)] := seatsSet_of_not_mem v h
    have h2 : k ∈ (seatsSet m k v).map Prod.fst := by
      rw [h1]
      simp
    rw [seatsSet_of_mem w h2, h1, seatsSet_of_not_mem w h, List.map_append]
    congr 1
    · have hid : m.map (fun p => if p.1 = k then (k, w) else p) = m.map id := by
        refine List.map_congr_left ?_
        intro p hp
        rw [if_neg (fun hc : p.1 = k => h (hc ▸ List.mem_map_of_mem Prod.fst hp))]
        rfl
      rw [hid, List.map_id]
    · simp

theorem mapSet_eq_self {m : SeatMap} {k : String} {v : SeatVal}
    (hnd : (m.map Prod.fst).Nodup) (hget : seatsGet m k = some v) :
    m.map (fun p => if p.1 = k then (k, v) else p) = m := by
  induction m with
  | nil => rfl
  | cons p t ih =>
    rw [List.map_cons] at hnd
    rw [seatsGet_cons] at hget
    rw [List.map_cons]
    by_cases hp : p.1 = k
    · rw [if_pos hp] at hget
      rw [if_pos hp]
      have hv : v = p.2 := (Option.some.inj hget).symm
      have hk : k ∉ t.map Prod.fst := hp ▸ (List.nodup_cons.1 hnd).1
      have ht : t.map (fun q => if q.1 = k then (k, v) else q) = t.map id := by
        refine List.map_congr_left ?_
        intro q hq
        rw [if_neg (fun hc : q.1 = k => hk (hc ▸ List.mem_map_of_mem Prod.fst hq))]
        rfl
      rw [ht, List.map_id, ← hp, hv]
    · rw [if_neg hp] at hget
      rw [if_neg hp, ih (List.nodup_cons.1 hnd).2 hget]

theorem seatsSet_eq_self {m : SeatMap} {k : String} {v : SeatVal}
    (hnd : (m.map Prod.fst).Nodup) (hget : seatsGet m k = some v) :
    seatsSet m k v = m := by
  rw [seatsSet_of_mem v (seatsGet_mem_keys hget)]
  exact mapSet_eq_self hnd hget

theorem mem_seatsSet {m : SeatMap} {k : String} {v : SeatVal}
    {p : String × SeatVal} (hp : p ∈ seatsSet m k v) : p ∈ m ∨ p = (k, v) := by
  by_cases h : k ∈ m.map Prod.fst
  · rw [seatsSet_of_mem v h] at hp
    rcases List.mem_map.1 hp with ⟨q, hq, he⟩
    by_cases hqk : q.1 = k
    · right
      rw [← he, if_pos hqk]
    · left
      rw [← he, if_neg hqk]
      exact hq
  · rw [seatsSet_of_not_mem v h] at hp
    rcases List.mem_append.1 hp with h1 | h1
    · exact Or.inl h1
    · exact Or.inr (by simpa using h1)

/-! ## Lemmas about the reconcile fold -/

theorem reconcileStep_keys (m : SeatMap) (r : BookingRecord) :
    (reconcileStep m r).map Prod.fst = m.map Prod.fst := by
  unfold reconcileStep
  by_cases h : (seatsGet m r.seat_id).isSome = true
  · rw [if_pos h]
    exact seatsSet_keys_of_mem _ ((seatsGet_isSome_iff m r.seat_id).1 h)
  · rw [if_neg h]

theorem reconcileFold_keys (db : List BookingRecord) (m : SeatMap) :
    ((db.foldl reconcileStep m).map Prod.fst) = m.map Prod.fst := by
  induction db generalizing m with
  | nil => rfl
  | cons r rest ih => rw [List.foldl_cons, ih, reconcileStep_keys]

theorem reconcileStep_get_ne (m : SeatMap) (r : BookingRecord) {k : String}
    (h : r.seat_id ≠ k) : seatsGet (reconcileStep m r) k = seatsGet m k := by
  unfold reconcileStep
  by_cases hs : (seatsGet m r.seat_id).isSome = true
  · rw [if_pos hs]
    exact seatsGet_seatsSet_ne m _ (fun hc => h hc.symm)
  · rw [if_neg hs]

theorem reconcileFold_get_not_mem (db : List BookingRecord) (m : SeatMap)
    {k : String} (h : k ∉ dbSeatIds db) :
    seatsGet (db.foldl reconcileStep m) k = seatsGet m k := by
  induction db generalizing m with
  | nil => rfl
  | cons r rest ih =>
    rw [dbSeatIds, List.map_cons, List.mem_cons] at h
    push_neg at h
    rw [List.foldl_cons]
    have h1 : seatsGet (rest.foldl reconcileStep (reconcileStep m r)) k =
        seatsGet (reconcileStep m r) k := ih (reconcileStep m r) h.2
    rw [h1]
    exact reconcileStep_get_ne m r (fun hc => h.1 hc.symm)

theorem reconcileFold_vals {P : SeatVal → Prop} (db : List BookingRecord)
    (m : SeatMap) (hm : ∀ p ∈ m, P p.2) (hdb : ∀ r ∈ db, P r.booking_ref) :
    ∀ p ∈ db.foldl reconcileStep m, P p.2 := by
  induction db generalizing m with
  | nil => exact hm
  | cons r rest ih =>
    rw [List.foldl_cons]
    refine ih (reconcileStep m r) ?_ (fun q hq => hdb q (List.mem_cons_of_mem r hq))
    intro p hp
    unfold reconcileStep at hp
    by_cases hs : (seatsGet m r.seat_id).isSome = true
    · rw [if_pos hs] at hp
      rcases mem_seatsSet hp with h1 | h1
      · exact hm p h1
      · rw [h1]
        exact hdb r (List.mem_cons_self r rest)
    · rw [if_neg hs] at hp
      exact hm p hp

theorem reconcileFold_get_mem (db : List BookingRecord) (m : SeatMap)
    {r : BookingRecord} (hnd : (dbSeatIds db).Nodup) (hr : r ∈ db)
    (hmem : r.seat_id ∈ m.map Prod.fst) :
    seatsGet (db.foldl reconcileStep m) r.seat_id = some r.booking_ref := by
  induction db generalizing m with
  | nil => cases hr
  | cons r0 rest ih =>
    rw [dbSeatIds, List.map_cons, List.nodup_cons] at hnd
    rw [List.foldl_cons]
    rcases List.mem_cons.1 hr with heq | hr'
    · subst heq
      have hs : (seatsGet m r.seat_id).isSome = true :=
        (seatsGet_isSome_iff m r.seat_id).2 hmem
      have hstep : reconcileStep m r = seatsSet m r.seat_id r.booking_ref := by
        unfold reconcileStep
        rw [if_pos hs]
      rw [reconcileFold_get_not_mem rest (reconcileStep m r) hnd.1]
      rw [hstep, seatsGet_seatsSet_self]
    · refine ih (reconcileStep m r0) hnd.2 hr' ?_
      rw [reconcileStep_keys]
      exact hmem

/-! ## Lemmas about the persistent store -/

theorem dbInsert_eq_some {db db1 : List BookingRecord} {r : BookingRecord}
    (h : dbInsert db r = some db1) :
    db1 = db ++ [r] ∧ r.booking_ref ∉ dbRefs db ∧ r.seat_id ∉ dbSeatIds db := by
  unfold dbInsert at h
  by_cases hc : r.booking_ref ∈ dbRefs db ∨ r.seat_id ∈ dbSeatIds db
  · rw [if_pos hc] at h
    cases h
  · rw [if_neg hc] at h
    push_neg at hc
    exact ⟨(Option.some.inj h).symm, hc.1, hc.2⟩

theorem dbDeleteRef_mem {db : List BookingRecord} {ref : String}
    {r : BookingRecord} :
    r ∈ dbDeleteRef db ref ↔ r ∈ db ∧ r.booking_ref ≠ ref := by
  unfold dbDeleteRef
  rw [List.mem_filter]
  simp

theorem dbDeleteRef_sublist (db : List BookingRecord) (ref : String) :
    (dbDeleteRef db ref).Sublist db := List.filter_sublist db

/-! ## Lemmas about reference generation -/

/-- Well-formed booking reference: 8 characters, all drawn from the
generation alphabet. -/
def goodRef (s : String) : Prop :=
  s.length = 8 ∧ ∀ c ∈ s.data, c ∈ refAlphabet

theorem goodRef_ne_F {s : String} (h : goodRef s) : s ≠ "F" := by
  intro hc
  rw [hc] at h
  exact absurd h.1 (by decide)

theorem goodRef_ne_S {s : String} (h : goodRef s) : s ≠ "S" := by
  intro hc
  rw [hc] at h
  exact absurd h.1 (by decide)

theorem mkCandidate_goodRef (d : Fin 8 → Fin 36) : goodRef (mkCandidate d) := by
  constructor
  · simp [mkCandidate, String.length]
  · intro c hc
    have hc' : c ∈ (List.finRange 8).map (fun p => refChar (d p)) := hc
    rcases List.mem_map.1 hc' with ⟨p, _, he⟩
    rw [← he]
    unfold refChar
    exact List.get_mem refAlphabet _ _

theorem generate_booking_ref_cons (db : List BookingRecord)
    (d : Fin 8 → Fin 36) (rest : List (Fin 8 → Fin 36)) :
    generate_booking_ref db (d :: rest) =
      if db.countP (fun r => r.booking_ref == mkCandidate d) = 0 then
        some (mkCandidate d)
      else generate_booking_ref db rest := rfl

theorem generate_booking_ref_spec {db : List BookingRecord}
    {stream : List (Fin 8 → Fin 36)} {ref : String}
    (h : generate_booking_ref db stream = some ref) :
    goodRef ref ∧ ref ∉ dbRefs db := by
  induction stream with
  | nil => cases h
  | cons d rest ih =>
    rw [generate_booking_ref_cons] at h
    by_cases hc : db.countP (fun r => r.booking_ref == mkCandidate d) = 0
    · rw [if_pos hc] at h
      have he : mkCandidate d = ref := Option.some.inj h
      subst he
      refine ⟨mkCandidate_goodRef d, ?_⟩
      intro hmem
      rcases List.mem_map.1 hmem with ⟨r, hr, hre⟩
      have : ¬((fun r : BookingRecord => r.booking_ref == mkCandidate d) r = true) :=
        List.countP_eq_zero.1 hc r hr
      exact this (by simp [hre])
    · rw [if_neg hc] at h
      exact ih h

/-! ## Case equations for the operations -/

theorem book_seat_of_notFound {st : SysState} {seat_id : String}
    (info : PassengerInfo) (stream : List (Fin 8 → Fin 36))
    (hget : seatsGet st.seats seat_id = none) :
    book_seat st seat_id info stream = some (st, .notFound) := by
  simp [book_seat, hget]

theorem book_seat_of_storage {st : SysState} {seat_id : String}
    (info : PassengerInfo) (stream : List (Fin 8 → Fin 36))
    (hget : seatsGet st.seats seat_id = some "S") :
    book_seat st seat_id info stream = some (st, .storageArea) := by
  simp [book_seat, hget]

theorem book_seat_of_booked {st : SysState} {seat_id : String} {v : SeatVal}
    (info : PassengerInfo) (stream : List (Fin 8 → Fin 36))
    (hget : seatsGet st.seats seat_id = some v) (h1 : v ≠ "F") (h2 : v ≠ "S") :
    book_seat st seat_id info stream = some (st, .alreadyBooked v) := by
  simp [book_seat, hget, h1, h2]

theorem book_seat_of_free_exhausted {st : SysState} {seat_id : String}
    (info : PassengerInfo) {stream : List (Fin 8 → Fin 36)}
    (hget : seatsGet st.seats seat_id = some "F")
    (hgen : generate_booking_ref st.db stream = none) :
    book_seat st seat_id info stream = none := by
  simp [book_seat, hget, hgen]

theorem book_seat_of_invalidRow {st : SysState} {seat_id : String}
    (info : PassengerInfo) {stream : List (Fin 8 → Fin 36)} {ref : String}
    (hget : seatsGet st.seats seat_id = some "F")
    (hgen : generate_booking_ref st.db stream = some ref)
    (hrow : parseRow (seat_id.dropRight 1) = none) :
    book_seat st seat_id info stream = some (st, .invalidRow) := by
  simp [book_seat, hget, hgen, hrow]

theorem book_seat_of_success {st : SysState} {seat_id : String}
    {info : PassengerInfo} {stream : List (Fin 8 → Fin 36)} {ref : String}
    {n : Nat} {db1 : List BookingRecord}
    (hget : seatsGet st.seats seat_id = some "F")
    (hgen : generate_booking_ref st.db stream = some ref)
    (hrow : parseRow (seat_id.dropRight 1) = some n)
    (hins : dbInsert st.db (bookRecord ref info n seat_id) = some db1) :
    book_seat st seat_id info stream =
      some (⟨seatsSet st.seats seat_id ref, db1⟩, .success ref) := by
  simp [book_seat, hget, hgen, hrow, hins]

theorem book_seat_of_conflict {st : SysState} {seat_id : String}
    {info : PassengerInfo} {stream : List (Fin 8 → Fin 36)} {ref : String}
    {n : Nat}
    (hget : seatsGet st.seats seat_id = some "F")
    (hgen : generate_booking_ref st.db stream = some ref)
    (hrow : parseRow (seat_id.dropRight 1) = some n)
    (hins : dbInsert st.db (bookRecord ref info n seat_id) = none) :
    book_seat st seat_id info stream =
      some (⟨seatsSet (seatsSet st.seats seat_id ref) seat_id "F", st.db⟩,
        .conflict) := by
  simp [book_seat, hget, hgen, hrow, hins]

theorem free_seat_of_notFound {st : SysState} {seat_id : String}
    (hget : seatsGet st.seats seat_id = none) :
    free_seat st seat_id = (st, .notFound) := by
  simp [free_seat, hget]

theorem free_seat_of_booked {st : SysState} {seat_id : String} {v : SeatVal}
    (hget : seatsGet st.seats seat_id = some v) (h1 : v ≠ "F") (h2 : v ≠ "S") :
    free_seat st seat_id =
      (⟨seatsSet st.seats seat_id "F", dbDeleteRef st.db v⟩, .success) := by
  simp [free_seat, hget, h1, h2]

theorem free_seat_of_free {st : SysState} {seat_id : String}
    (hget : seatsGet st.seats seat_id = some "F") :
    free_seat st seat_id = (st, .alreadyFree) := by
  simp [free_seat, hget]

theorem free_seat_of_storage {st : SysState} {seat_id : String}
    (hget : seatsGet st.seats seat_id = some "S") :
    free_seat st seat_id = (st, .storageArea) := by
  simp [free_seat, hget]

/-! ## The seat identifiers of the layout -/

/-- The seat identifiers the initialization loops run through, in loop
order. -/
def layoutKeys : List String :=
  (front_rows.flatMap fun row => front_columns.map fun col => seatIdStr row col)
  ++ (rear_rows.flatMap fun row => rear_columns.map fun col => seatIdStr row col)

theorem seatIdStr_data (row : Nat) (col : Char) :
    (seatIdStr row col).data = (toString row).data ++ [col] := rfl

theorem seatIdStr_inj {r r' : Nat} {c c' : Char}
    (h : seatIdStr r c = seatIdStr r' c') : toString r = toString r' ∧ c = c' := by
  have hd : (toString r).data ++ [c] = (toString r').data ++ [c'] := by
    rw [← seatIdStr_data, ← seatIdStr_data, h]
  obtain ⟨h1, h2⟩ := List.append_inj' hd rfl
  exact ⟨String.ext h1, (List.cons.inj h2).1⟩

theorem rowStrs_nodup : ((List.range' 1 80).map fun r => toString r).Nodup := by
  decide

theorem toString_injOn_rows : ∀ r ∈ List.range' 1 80, ∀ r' ∈ List.range' 1 80,
    toString r = toString r' → r = r' :=
  List.inj_on_of_nodup_map rowStrs_nodup

theorem initSeats_keys : initSeats.map Prod.fst = layoutKeys := by
  simp [initSeats, layoutKeys, List.map_flatMap, List.map_map, Function.comp_def]

theorem section_keys_nodup (cols : List Char) (hcols : cols.Nodup) :
    ((List.range' 1 80).flatMap fun row =>
      cols.map fun col => seatIdStr row col).Nodup := by
  rw [List.nodup_flatMap]
  constructor
  · intro row hrow
    refine List.Nodup.map_on ?_ hcols
    intro c hc c' hc' he
    exact (seatIdStr_inj he).2
  · refine List.Pairwise.imp_of_mem ?_ (List.nodup_range' 1 80)
    intro r r' hr hr' hne x hx hx'
    rcases List.mem_map.1 hx with ⟨c, hc, he⟩
    rcases List.mem_map.1 hx' with ⟨c', hc', he'⟩
    have heq : seatIdStr r c = seatIdStr r' c' := he.trans he'.symm
    exact hne (toString_injOn_rows r hr r' hr' (seatIdStr_inj heq).1)

theorem layoutKeys_nodup : layoutKeys.Nodup := by
  unfold layoutKeys
  rw [List.nodup_append]
  refine ⟨section_keys_nodup front_columns (by decide),
    section_keys_nodup rear_columns (by decide), ?_⟩
  intro x hx hx'
  rcases List.mem_flatMap.1 hx with ⟨r, hr, hcx⟩
  rcases List.mem_map.1 hcx with ⟨c, hc, he⟩
  rcases List.mem_flatMap.1 hx' with ⟨r', hr', hcx'⟩
  rcases List.mem_map.1 hcx' with ⟨c', hc', he'⟩
  have heq : seatIdStr r c = seatIdStr r' c' := he.trans he'.symm
  have hcc : c = c' := (seatIdStr_inj heq).2
  subst hcc
  rw [front_columns] at hc
  rw [rear_columns] at hc'
  simp at hc hc'
  rcases hc with rfl | rfl | rfl <;> rcases hc' with h | h | h <;>
    exact absurd h (by decide)

theorem initSeats_keys_nodup : (initSeats.map Prod.fst).Nodup := by
  rw [initSeats_keys]
  exact layoutKeys_nodup

/-! ## The reachable states and the system invariant -/

/-- State of a fresh process start with an empty `bookings` table. -/
def initState : SysState := ⟨initSeats, []⟩

theorem initSeats_vals : ∀ p ∈ initSeats, p.2 = "F" ∨ p.2 = "S" := by
  intro p hp
  rcases List.mem_append.1 hp with h | h
  · rcases List.mem_flatMap.1 h with ⟨row, hrow, hc⟩
    rcases List.mem_map.1 hc with ⟨col, hcol, he⟩
    left
    rw [← he]
  · rcases List.mem_flatMap.1 h with ⟨row, hrow, hc⟩
    rcases List.mem_map.1 hc with ⟨col, hcol, he⟩
    rw [← he]
    by_cases h78 : row = 77 ∨ row = 78
    · right
      simp [h78]
    · left
      simp [h78]

theorem initSeats_storage : ∀ sid ∈ storageIds, seatsGet initSeats sid = some "S" := by
  intro sid hsid
  fin_cases hsid <;> rfl

/-- Everything the operations jointly maintain about a program state. -/
structure Inv (st : SysState) : Prop where
  keys_eq : st.seats.map Prod.fst = initSeats.map Prod.fst
  storage_S : ∀ sid ∈ storageIds, seatsGet st.seats sid = some "S"
  db_goodRef : ∀ r ∈ st.db, goodRef r.booking_ref
  db_not_storage : ∀ r ∈ st.db, r.seat_id ∉ storageIds
  refs_nodup : (dbRefs st.db).Nodup
  seatIds_nodup : (dbSeatIds st.db).Nodup
  vals_ok : ∀ p ∈ st.seats, p.2 = "F" ∨ p.2 = "S" ∨ goodRef p.2

theorem Inv_init : Inv initState := by
  refine ⟨rfl, initSeats_storage, ?_, ?_, ?_, ?_, ?_⟩
  · intro r hr
    cases hr
  · intro r hr
    cases hr
  · exact List.nodup_nil
  · exact List.nodup_nil
  · intro p hp
    rcases initSeats_vals p hp with h | h
    · exact Or.inl h
    · exact Or.inr (Or.inl h)

theorem storage_ne_of_get {st : SysState} (hinv : Inv st) {seat_id : String}
    {v : SeatVal} (hget : seatsGet st.seats seat_id = some v) (hv : v ≠ "S") :
    ∀ sid ∈ storageIds, sid ≠ seat_id := by
  intro sid hsid hc
  subst hc
  rw [hinv.storage_S sid hsid] at hget
  exact hv (Option.some.inj hget).symm

theorem Inv_book {st st' : SysState} {out : BookOutcome} {seat_id : String}
    {info : PassengerInfo} {stream : List (Fin 8 → Fin 36)}
    (hinv : Inv st) (h : book_seat st seat_id info stream = some (st', out)) :
    Inv st' := by
  cases hget : seatsGet st.seats seat_id with
  | none =>
    rw [book_seat_of_notFound info stream hget] at h
    cases Option.some.inj h
    exact hinv
  | some v =>
    by_cases h1 : v = "F"
    · subst h1
      cases hgen : generate_booking_ref st.db stream with
      | none =>
        rw [book_seat_of_free_exhausted info hget hgen] at h
        cases h
      | some ref =>
        have href := generate_booking_ref_spec hgen
        cases hrow : parseRow (seat_id.dropRight 1) with
        | none =>
          rw [book_seat_of_invalidRow info hget hgen hrow] at h
          cases Option.some.inj h
          exact hinv
        | some n =>
          have hmem : seat_id ∈ st.seats.map Prod.fst := seatsGet_mem_keys hget
          have hne : ∀ sid ∈ storageIds, sid ≠ seat_id :=
            storage_ne_of_get hinv hget (by decide)
          have hsid_not_storage : seat_id ∉ storageIds := by
            intro hc
            exact hne seat_id hc rfl
          cases hins : dbInsert st.db (bookRecord ref info n seat_id) with
          | some db1 =>
            rw [book_seat_of_success hget hgen hrow hins] at h
            cases Option.some.inj h
            obtain ⟨hdb1, hfresh_ref, hfresh_sid⟩ := dbInsert_eq_some hins
            subst hdb1
            refine ⟨?_, ?_, ?_, ?_, ?_, ?_, ?_⟩
            · rw [seatsSet_keys_of_mem ref hmem]
              exact hinv.keys_eq
            · intro sid hsid
              rw [seatsGet_seatsSet_ne st.seats ref (hne sid hsid)]
              exact hinv.storage_S sid hsid
            · intro r hr
              rcases List.mem_append.1 hr with hr | hr
              · exact hinv.db_goodRef r hr
              · rw [List.mem_singleton.1 hr]
                exact href.1
            · intro r hr
              rcases List.mem_append.1 hr with hr | hr
              · exact hinv.db_not_storage r hr
              · rw [List.mem_singleton.1 hr]
                exact hsid_not_storage
            · rw [dbRefs, List.map_append, List.nodup_append]
              refine ⟨hinv.refs_nodup, List.nodup_singleton _, ?_⟩
              intro a ha hb
              rw [List.mem_singleton.1 hb] at ha
              exact hfresh_ref ha
            · rw [dbSeatIds, List.map_append, List.nodup_append]
              refine ⟨hinv.seatIds_nodup, List.nodup_singleton _, ?_⟩
              intro a ha hb
              rw [List.mem_singleton.1 hb] at ha
              exact hfresh_sid ha
            · intro p hp
              rcases mem_seatsSet hp with hp | hp
              · exact hinv.vals_ok p hp
              · rw [hp]
                exact Or.inr (Or.inr href.1)
          | none =>
            rw [book_seat_of_conflict hget hgen hrow hins] at h
            cases Option.some.inj h
            rw [seatsSet_seatsSet]
            refine ⟨?_, ?_, hinv.db_goodRef, hinv.db_not_storage,
              hinv.refs_nodup, hinv.seatIds_nodup, ?_⟩
            · rw [seatsSet_keys_of_mem _ hmem]
              exact hinv.keys_eq
            · intro sid hsid
              rw [seatsGet_seatsSet_ne st.seats _ (hne sid hsid)]
              exact hinv.storage_S sid hsid
            · intro p hp
              rcases mem_seatsSet hp with hp | hp
              · exact hinv.vals_ok p hp
              · rw [hp]
                exact Or.inl rfl
    · by_cases h2 : v = "S"
      · subst h2
        rw [book_seat_of_storage info stream hget] at h
        cases Option.some.inj h
        exact hinv
      · rw [book_seat_of_booked info stream hget h1 h2] at h
        cases Option.some.inj h
        exact hinv

theorem Inv_free {st : SysState} (seat_id : String) (hinv : Inv st) :
    Inv (free_seat st seat_id).1 := by
  cases hget : seatsGet st.seats seat_id with
  | none =>
    rw [free_seat_of_notFound hget]
    exact hinv
  | some v =>
    by_cases h1 : v = "F"
    · subst h1
      rw [free_seat_of_free hget]
      exact hinv
    · by_cases h2 : v = "S"
      · subst h2
        rw [free_seat_of_storage hget]
        exact hinv
      · rw [free_seat_of_booked hget h1 h2]
        have hmem : seat_id ∈ st.seats.map Prod.fst := seatsGet_mem_keys hget
        have hne : ∀ sid ∈ storageIds, sid ≠ seat_id :=
          storage_ne_of_get hinv hget h2
        refine ⟨?_, ?_, ?_, ?_, ?_, ?_, ?_⟩
        · rw [seatsSet_keys_of_mem _ hmem]
          exact hinv.keys_eq
        · intro sid hsid
          rw [seatsGet_seatsSet_ne st.seats _ (hne sid hsid)]
          exact hinv.storage_S sid hsid
        · intro r hr
          exact hinv.db_goodRef r (dbDeleteRef_mem.1 hr).1
        · intro r hr
          exact hinv.db_not_storage r (dbDeleteRef_mem.1 hr).1
        · exact hinv.refs_nodup.sublist ((dbDeleteRef_sublist st.db v).map _)
        · exact hinv.seatIds_nodup.sublist ((dbDeleteRef_sublist st.db v).map _)
        · intro p hp
          rcases mem_seatsSet hp with hp | hp
          · exact hinv.vals_ok p hp
          · rw [hp]
            exact Or.inl rfl

theorem Inv_restart {st : SysState} (hinv : Inv st) :
    Inv ⟨initSeats, st.db⟩ := by
  refine ⟨rfl, initSeats_storage, hinv.db_goodRef, hinv.db_not_storage,
    hinv.refs_nodup, hinv.seatIds_nodup, ?_⟩
  intro p hp
  rcases initSeats_vals p hp with h | h
  · exact Or.inl h
  · exact Or.inr (Or.inl h)

theorem Inv_reconcile {st : SysState} (hinv : Inv st) :
    Inv (load_existing_bookings st) := by
  unfold load_existing_bookings
  refine ⟨?_, ?_, hinv.db_goodRef, hinv.db_not_storage,
    hinv.refs_nodup, hinv.seatIds_nodup, ?_⟩
  · rw [reconcileFold_keys]
    exact hinv.keys_eq
  · intro sid hsid
    have hnot : sid ∉ dbSeatIds st.db := by
      intro hc
      rcases List.mem_map.1 hc with ⟨r, hr, he⟩
      exact hinv.db_not_storage r hr (he ▸ hsid)
    rw [reconcileFold_get_not_mem st.db st.seats hnot]
    exact hinv.storage_S sid hsid
  · exact reconcileFold_vals (P := fun v => v = "F" ∨ v = "S" ∨ goodRef v)
      st.db st.seats hinv.vals_ok
      (fun r hr => Or.inr (Or.inr (hinv.db_goodRef r hr)))

/-- The states the running program can be in: a fresh start with an
empty store, followed by any interleaving of the menu operations,
process restarts (which reset the in-memory map but keep the store), and
reconciliation. -/
inductive Reachable : SysState → Prop where
  | start : Reachable initState
  | book {st st' : SysState} {out : BookOutcome} (seat_id : String)
      (info : PassengerInfo) (stream : List (Fin 8 → Fin 36)) :
      Reachable st → book_seat st seat_id info stream = some (st', out) →
      Reachable st'
  | free {st : SysState} (seat_id : String) :
      Reachable st → Reachable (free_seat st seat_id).1
  | restart {st : SysState} : Reachable st → Reachable ⟨initSeats, st.db⟩
  | reconcile {st : SysState} :
      Reachable st → Reachable (load_existing_bookings st)

theorem reachable_inv {st : SysState} (h : Reachable st) : Inv st := by
  induction h with
  | start => exact Inv_init
  | book seat_id info stream _ hstep ih => exact Inv_book ih hstep
  | free seat_id _ ih => exact Inv_free seat_id ih
  | restart _ ih => exact Inv_restart ih
  | reconcile _ ih => exact Inv_reconcile ih

/-! ## Further helper lemmas -/

theorem seatsGet_mem {m : SeatMap} {k : String} {v : SeatVal}
    (h : seatsGet m k = some v) : (k, v) ∈ m := by
  induction m with
  | nil => cases h
  | cons p t ih =>
    rw [seatsGet_cons] at h
    by_cases hp : p.1 = k
    · rw [if_pos hp] at h
      have hv : v = p.2 := (Option.some.inj h).symm
      have hpv : (k, v) = p := by rw [hv, ← hp]
      rw [hpv]
      exact List.mem_cons_self p t
    · rw [if_neg hp] at h
      exact List.mem_cons_of_mem p (ih h)

theorem seatsGet_of_mem_nodup {m : SeatMap}
    (hnd : (m.map Prod.fst).Nodup) {p : String × SeatVal} (hp : p ∈ m) :
    seatsGet m p.1 = some p.2 := by
  induction m with
  | nil => cases hp
  | cons q t ih =>
    rw [List.map_cons, List.nodup_cons] at hnd
    rcases List.mem_cons.1 hp with heq | hp'
    · subst heq
      rw [seatsGet_cons, if_pos rfl]
    · rw [seatsGet_cons]
      by_cases hq : q.1 = p.1
      · exact absurd (List.mem_map_of_mem Prod.fst hp') (hq ▸ hnd.1)
      · rw [if_neg hq]
        exact ih hnd.2 hp'

theorem dbDeleteRef_append_fresh {db : List BookingRecord}
    {r : BookingRecord} {ref : String} (hfresh : ref ∉ dbRefs db)
    (hr : r.booking_ref = ref) : dbDeleteRef (db ++ [r]) ref = db := by
  unfold dbDeleteRef
  rw [List.filter_append]
  have h1 : db.filter (fun q => q.booking_ref ≠ ref) = db := by
    rw [List.filter_eq_self]
    intro q hq
    simp only [ne_eq, decide_not, Bool.not_eq_eq_eq_not, Bool.not_true,
      decide_eq_false_iff_not]
    intro hc
    exact hfresh (hc ▸ List.mem_map_of_mem (fun x => x.booking_ref) hq)
  have h2 : [r].filter (fun q => q.booking_ref ≠ ref) = [] := by
    simp [List.filter, hr]
  rw [h1, h2, List.append_nil]

/-- Exhaustive characterization of a terminating `book_seat` call. -/
theorem book_seat_cases {st : SysState} {seat_id : String}
    {info : PassengerInfo} {stream : List (Fin 8 → Fin 36)}
    {res : SysState × BookOutcome}
    (h : book_seat st seat_id info stream = some res) :
    (seatsGet st.seats seat_id = none ∧ res = (st, .notFound)) ∨
    (seatsGet st.seats seat_id = some "S" ∧ res = (st, .storageArea)) ∨
    (∃ v, seatsGet st.seats seat_id = some v ∧ v ≠ "F" ∧ v ≠ "S" ∧
      res = (st, .alreadyBooked v)) ∨
    (∃ ref, seatsGet st.seats seat_id = some "F" ∧
      generate_booking_ref st.db stream = some ref ∧
      parseRow (seat_id.dropRight 1) = none ∧ res = (st, .invalidRow)) ∨
    (∃ ref n db1, seatsGet st.seats seat_id = some "F" ∧
      generate_booking_ref st.db stream = some ref ∧
      parseRow (seat_id.dropRight 1) = some n ∧
      dbInsert st.db (bookRecord ref info n seat_id) = some db1 ∧
      res = (⟨seatsSet st.seats seat_id ref, db1⟩, .success ref)) ∨
    (∃ ref n, seatsGet st.seats seat_id = some "F" ∧
      generate_booking_ref st.db stream = some ref ∧
      parseRow (seat_id.dropRight 1) = some n ∧
      dbInsert st.db (bookRecord ref info n seat_id) = none ∧
      res = (⟨seatsSet (seatsSet st.seats seat_id ref) seat_id "F", st.db⟩,
        .conflict)) := by
  cases hget : seatsGet st.seats seat_id with
  | none =>
    rw [book_seat_of_notFound info stream hget] at h
    exact Or.inl ⟨rfl, (Option.some.inj h).symm⟩
  | some v =>
    by_cases h1 : v = "F"
    · subst h1
      cases hgen : generate_booking_ref st.db stream with
      | none =>
        rw [book_seat_of_free_exhausted info hget hgen] at h
        cases h
      | some ref =>
        cases hrow : parseRow (seat_id.dropRight 1) with
        | none =>
          rw [book_seat_of_invalidRow info hget hgen hrow] at h
          exact Or.inr (Or.inr (Or.inr (Or.inl
            ⟨ref, rfl, rfl, rfl, (Option.some.inj h).symm⟩)))
        | some n =>
          cases hins : dbInsert st.db (bookRecord ref info n seat_id) with
          | some db1 =>
            rw [book_seat_of_success hget hgen hrow hins] at h
            exact Or.inr (Or.inr (Or.inr (Or.inr (Or.inl
              ⟨ref, n, db1, rfl, rfl, rfl, hins, (Option.some.inj h).symm⟩))))
          | none =>
            rw [book_seat_of_conflict hget hgen hrow hins] at h
            exact Or.inr (Or.inr (Or.inr (Or.inr (Or.inr
              ⟨ref, n, rfl, rfl, rfl, hins, (Option.some.inj h).symm⟩))))
    · by_cases h2 : v = "S"
      · subst h2
        rw [book_seat_of_storage info stream hget] at h
        exact Or.inr (Or.inl ⟨rfl, (Option.some.inj h).symm⟩)
      · rw [book_seat_of_booked info stream hget h1 h2] at h
        exact Or.inr (Or.inr (Or.inl
          ⟨v, rfl, h1, h2, (Option.some.inj h).symm⟩))

/-- Exhaustive characterization of `free_seat`. -/
theorem free_seat_cases (st : SysState) (seat_id : String) :
    (seatsGet st.seats seat_id = none ∧ free_seat st seat_id = (st, .notFound)) ∨
    (seatsGet st.seats seat_id = some "F" ∧
      free_seat st seat_id = (st, .alreadyFree)) ∨
    (seatsGet st.seats seat_id = some "S" ∧
      free_seat st seat_id = (st, .storageArea)) ∨
    (∃ v, seatsGet st.seats seat_id = some v ∧ v ≠ "F" ∧ v ≠ "S" ∧
      free_seat st seat_id =
        (⟨seatsSet st.seats seat_id "F", dbDeleteRef st.db v⟩, .success)) := by
  cases hget : seatsGet st.seats seat_id with
  | none => exact Or.inl ⟨rfl, free_seat_of_notFound hget⟩
  | some v =>
    by_cases h1 : v = "F"
    · subst h1
      exact Or.inr (Or.inl ⟨rfl, free_seat_of_free hget⟩)
    · by_cases h2 : v = "S"
      · subst h2
        exact Or.inr (Or.inr (Or.inl ⟨rfl, free_seat_of_storage hget⟩))
      · exact Or.inr (Or.inr (Or.inr
          ⟨v, rfl, h1, h2, free_seat_of_booked hget h1 h2⟩))

/-- The module-level initialization loops as Python executes them: a
sequence of dictionary assignments (the `(seat id, value)` pairs in loop
order are exactly the entries of `initSeats`). -/
def applyAssigns (m : SeatMap) (ps : List (String × SeatVal)) : SeatMap :=
  ps.foldl (fun m p => seatsSet m p.1 p.2) m

theorem applyAssigns_fresh {ps : List (String × SeatVal)} :
    ∀ {m : SeatMap}, (∀ k ∈ ps.map Prod.fst, k ∉ m.map Prod.fst) →
    (ps.map Prod.fst).Nodup → applyAssigns m ps = m ++ ps := by
  induction ps with
  | nil =>
    intro m _ _
    rw [applyAssigns, List.foldl_nil, List.append_nil]
  | cons p t ih =>
    intro m hdisj hnd
    rw [List.map_cons, List.nodup_cons] at hnd
    rw [applyAssigns, List.foldl_cons]
    have hp : p.1 ∉ m.map Prod.fst :=
      hdisj p.1 (by rw [List.map_cons]; exact List.mem_cons_self _ _)
    have hset : seatsSet m p.1 p.2 = m ++ [p] := seatsSet_of_not_mem p.2 hp
    rw [hset]
    have hstep : applyAssigns (m ++ [p]) t = (m ++ [p]) ++ t := by
      refine ih ?_ hnd.2
      intro k hk
      rw [List.map_append, List.mem_append]
      rintro (hc | hc)
      · exact hdisj k (by rw [List.map_cons]; exact List.mem_cons_of_mem _ hk) hc
      · rcases List.mem_singleton.1 (by simpa using hc) with hc'
        exact hnd.1 (hc' ▸ hk)
    calc t.foldl (fun m p => seatsSet m p.1 p.2) (m ++ [p])
        = applyAssigns (m ++ [p]) t := rfl
      _ = (m ++ [p]) ++ t := hstep
      _ = m ++ (p :: t) := by rw [List.append_assoc]; rfl

theorem applyAssigns_idem {m : SeatMap} (hnd : (m.map Prod.fst).Nodup) :
    ∀ {ps : List (String × SeatVal)},
    (∀ p ∈ ps, seatsGet m p.1 = some p.2) → applyAssigns m ps = m := by
  intro ps
  induction ps with
  | nil =>
    intro _
    rfl
  | cons p t ih =>
    intro hget
    rw [applyAssigns, List.foldl_cons,
      seatsSet_eq_self hnd (hget p (List.mem_cons_self p t))]
    exact ih (fun q hq => hget q (List.mem_cons_of_mem p hq))

/-! ## The claims -/

/-- C1: every storage seat (rows 77–78, columns D–F) is `"S"` in the
initial ledger and in every reachable state (hence after any sequence of
Book, Free, restart and Reconcile steps), and Book and Free on it fail
with the storage-area error leaving the whole state unchanged. -/
theorem claim_C1 {st : SysState} (hst : Reachable st) :
    ∀ sid ∈ storageIds,
      seatsGet initState.seats sid = some "S" ∧
      seatsGet st.seats sid = some "S" ∧
      (∀ (info : PassengerInfo) (stream : List (Fin 8 → Fin 36)),
        book_seat st sid info stream = some (st, .storageArea)) ∧
      free_seat st sid = (st, .storageArea) := by
  intro sid hsid
  have hS := (reachable_inv hst).storage_S sid hsid
  exact ⟨initSeats_storage sid hsid, hS,
    fun info stream => book_seat_of_storage info stream hS,
    free_seat_of_storage hS⟩

theorem claim_C1_witness :
    seatsGet initState.seats "77D" = some "S" ∧
    book_seat initState "77D" ⟨"P123", "Ada", "Lovelace"⟩ [] =
      some (initState, .storageArea) ∧
    free_seat initState "77D" = (initState, .storageArea) := by
  have h := claim_C1 Reachable.start "77D" (by decide)
  exact ⟨h.1, h.2.2.1 ⟨"P123", "Ada", "Lovelace"⟩ [], h.2.2.2⟩

/-- C2: when the seat is free but the INSERT hits the uniqueness
constraint, `book_seat` rolls the seat back and the resulting state is
exactly the starting state, with the conflict error reported. -/
theorem claim_C2 {st : SysState} {seat_id : String} {info : PassengerInfo}
    {stream : List (Fin 8 → Fin 36)} {ref : String} {n : Nat}
    (hnd : (st.seats.map Prod.fst).Nodup)
    (hget : seatsGet st.seats seat_id = some "F")
    (hgen : generate_booking_ref st.db stream = some ref)
    (hrow : parseRow (seat_id.dropRight 1) = some n)
    (hins : dbInsert st.db (bookRecord ref info n seat_id) = none) :
    book_seat st seat_id info stream = some (st, .conflict) := by
  rw [book_seat_of_conflict hget hgen hrow hins, seatsSet_seatsSet,
    seatsSet_eq_self hnd hget]

/-- Conflict scenario: the seat shows free in memory, but the store
already has a record for it (e.g. after a restart without reconcile). -/
def c2State : SysState :=
  ⟨[("1A", "F")], [⟨"ZZZZZZZZ", "p", "f", "l", 1, "A", "1A"⟩]⟩

theorem claim_C2_witness :
    book_seat c2State "1A" ⟨"p", "f", "l"⟩ [fun x => 0] =
      some (c2State, .conflict) := by
  have hgen : generate_booking_ref c2State.db [fun x => (0 : Fin 36)] =
      some "AAAAAAAA" := by decide
  have hrow : parseRow ("1A".dropRight 1) = some 1 := by decide
  exact claim_C2 (by decide) (by decide) hgen hrow (by decide)

/-- C3: reconcile on the freshly initialized ledger books exactly the
seats named by the persisted records (those in the layout), leaves every
other seat at its initial status, keeps the key set, and does not touch
the store.  The `UNIQUE seat_id` constraint of the store gives the
no-duplicate hypothesis. -/
theorem claim_C3 (db : List BookingRecord) (hnd : (dbSeatIds db).Nodup) :
    (∀ r ∈ db, r.seat_id ∈ initSeats.map Prod.fst →
      seatsGet (load_existing_bookings ⟨initSeats, db⟩).seats r.seat_id =
        some r.booking_ref) ∧
    (∀ sid, sid ∉ dbSeatIds db →
      seatsGet (load_existing_bookings ⟨initSeats, db⟩).seats sid =
        seatsGet initSeats sid) ∧
    (load_existing_bookings ⟨initSeats, db⟩).seats.map Prod.fst =
      initSeats.map Prod.fst ∧
    (load_existing_bookings ⟨initSeats, db⟩).db = db := by
  refine ⟨?_, ?_, ?_, rfl⟩
  · intro r hr hmem
    exact reconcileFold_get_mem db initSeats hnd hr hmem
  · intro sid hsid
    exact reconcileFold_get_not_mem db initSeats hsid
  · exact reconcileFold_keys db initSeats

/-- Persisted set for the C3 witness: one record for a layout seat, one
for a seat outside the layout. -/
def c3db : List BookingRecord :=
  [⟨"AAAAAAAA", "p", "f", "l", 1, "A", "1A"⟩,
   ⟨"BBBBBBBB", "q", "g", "m", 99, "Z", "99Z"⟩]

theorem claim_C3_witness :
    seatsGet (load_existing_bookings ⟨initSeats, c3db⟩).seats "1A" =
      some "AAAAAAAA" ∧
    seatsGet (load_existing_bookings ⟨initSeats, c3db⟩).seats "2A" =
      seatsGet initSeats "2A" ∧
    (load_existing_bookings ⟨initSeats, c3db⟩).db = c3db := by
  have h := claim_C3 c3db (by decide)
  have hmem : ("1A" : String) ∈ initSeats.map Prod.fst := by decide
  exact ⟨h.1 ⟨"AAAAAAAA", "p", "f", "l", 1, "A", "1A"⟩ (by decide) hmem,
    h.2.1 "2A" (by decide), h.2.2.2⟩

/-- C4 (counterexample to the claim as stated): "Book succeeds if and
only if the seat's current status is Free" fails in the "if" direction:
in `c2State` seat "1A" is Free, yet Book returns the conflict error (the
store already holds a record for the seat), not success. -/
theorem claim_C4_counterexample :
    seatsGet c2State.seats "1A" = some "F" ∧
    book_seat c2State "1A" ⟨"p", "f", "l"⟩ [fun x => 0] =
      some (c2State, .conflict) := by
  constructor
  · decide
  · decide

/-- C4 (amended): a terminating Book succeeds only from a free seat;
from a free seat, provided reference generation returns and the insert
is conflict-free, it books the seat, stores the record, and a second
Book on the same seat fails with the already-booked error, leaving
state and reference unchanged. -/
theorem claim_C4 :
    (∀ (st : SysState) (seat_id : String) (info : PassengerInfo)
        (stream : List (Fin 8 → Fin 36)) (s : SysState) (ref : String),
      book_seat st seat_id info stream = some (s, .success ref) →
      seatsGet st.seats seat_id = some "F") ∧
    (∀ (st : SysState) (seat_id : String) (info : PassengerInfo)
        (stream : List (Fin 8 → Fin 36)) (ref : String) (n : Nat)
        (db1 : List BookingRecord),
      seatsGet st.seats seat_id = some "F" →
      generate_booking_ref st.db stream = some ref →
      parseRow (seat_id.dropRight 1) = some n →
      dbInsert st.db (bookRecord ref info n seat_id) = some db1 →
      book_seat st seat_id info stream =
        some (⟨seatsSet st.seats seat_id ref, db1⟩, .success ref) ∧
      seatsGet (seatsSet st.seats seat_id ref) seat_id = some ref ∧
      bookRecord ref info n seat_id ∈ db1 ∧
      (∀ (i : PassengerInfo) (t : List (Fin 8 → Fin 36)),
        book_seat ⟨seatsSet st.seats seat_id ref, db1⟩ seat_id i t =
          some (⟨seatsSet st.seats seat_id ref, db1⟩, .alreadyBooked ref))) := by
  constructor
  · intro st seat_id info stream s ref h
    rcases book_seat_cases h with ⟨hg, he⟩ | ⟨hg, he⟩ | ⟨v, hg, h1, h2, he⟩ |
      ⟨r0, hg, hgen, hrow, he⟩ | ⟨r0, n0, d0, hg, hgen, hrow, hins, he⟩ |
      ⟨r0, n0, hg, hgen, hrow, hins, he⟩
    · simp at he
    · simp at he
    · simp at he
    · simp at he
    · exact hg
    · simp at he
  · intro st seat_id info stream ref n db1 hget hgen hrow hins
    have hgr := (generate_booking_ref_spec hgen).1
    have hget1 : seatsGet (seatsSet st.seats seat_id ref) seat_id = some ref :=
      seatsGet_seatsSet_self _ _ _
    refine ⟨book_seat_of_success hget hgen hrow hins, hget1, ?_, ?_⟩
    · obtain ⟨hdb1, _, _⟩ := dbInsert_eq_some hins
      rw [hdb1]
      exact List.mem_append_right _ (List.mem_singleton.2 rfl)
    · intro i t
      exact book_seat_of_booked i t hget1 (goodRef_ne_F hgr) (goodRef_ne_S hgr)

theorem claim_C4_witness :
    seatsGet ([("1A", "F")] : SeatMap) "1A" = some "F" ∧
    book_seat ⟨[("1A", "F")], []⟩ "1A" ⟨"p", "f", "l"⟩ [fun x => 0] =
      some (⟨seatsSet [("1A", "F")] "1A" "AAAAAAAA",
        [⟨"AAAAAAAA", "p", "f", "l", 1, "A", "1A"⟩]⟩, .success "AAAAAAAA") ∧
    book_seat ⟨seatsSet [("1A", "F")] "1A" "AAAAAAAA",
        [⟨"AAAAAAAA", "p", "f", "l", 1, "A", "1A"⟩]⟩ "1A" ⟨"q", "g", "m"⟩ [] =
      some (⟨seatsSet [("1A", "F")] "1A" "AAAAAAAA",
        [⟨"AAAAAAAA", "p", "f", "l", 1, "A", "1A"⟩]⟩,
        .alreadyBooked "AAAAAAAA") := by
  have hgen : generate_booking_ref ([] : List BookingRecord)
      [fun x => (0 : Fin 36)] = some "AAAAAAAA" := by decide
  have hrow : parseRow ("1A".dropRight 1) = some 1 := by decide
  have h2 := claim_C4.2 ⟨[("1A", "F")], []⟩ "1A" ⟨"p", "f", "l"⟩
    [fun x => (0 : Fin 36)] "AAAAAAAA" 1
    [⟨"AAAAAAAA", "p", "f", "l", 1, "A", "1A"⟩] (by decide) hgen hrow (by decide)
  exact ⟨claim_C4.1 ⟨[("1A", "F")], []⟩ "1A" ⟨"p", "f", "l"⟩
      [fun x => (0 : Fin 36)] _ "AAAAAAAA" h2.1,
    h2.1, h2.2.2.2 ⟨"q", "g", "m"⟩ []⟩

/-- C5: Free succeeds exactly when the stored value is neither "F" nor
"S" (a booking reference); then it deletes precisely the records bearing
that reference and frees the seat; in the already-free, storage and
not-found cases the returned state is the input state. -/
theorem claim_C5 :
    (∀ (st : SysState) (seat_id : String) (s : SysState),
      free_seat st seat_id = (s, .success) →
      ∃ ref, seatsGet st.seats seat_id = some ref ∧ ref ≠ "F" ∧ ref ≠ "S" ∧
        s = ⟨seatsSet st.seats seat_id "F", dbDeleteRef st.db ref⟩ ∧
        (∀ r : BookingRecord,
          r ∈ dbDeleteRef st.db ref ↔ r ∈ st.db ∧ r.booking_ref ≠ ref)) ∧
    (∀ (st : SysState) (seat_id : String) (ref : SeatVal),
      seatsGet st.seats seat_id = some ref → ref ≠ "F" → ref ≠ "S" →
      free_seat st seat_id =
        (⟨seatsSet st.seats seat_id "F", dbDeleteRef st.db ref⟩, .success)) ∧
    (∀ (st : SysState) (seat_id : String),
      seatsGet st.seats seat_id = some "F" →
      free_seat st seat_id = (st, .alreadyFree)) ∧
    (∀ (st : SysState) (seat_id : String),
      seatsGet st.seats seat_id = some "S" →
      free_seat st seat_id = (st, .storageArea)) ∧
    (∀ (st : SysState) (seat_id : String),
      seatsGet st.seats seat_id = none →
      free_seat st seat_id = (st, .notFound)) := by
  refine ⟨?_, ?_, ?_, ?_, ?_⟩
  · intro st seat_id s h
    rcases free_seat_cases st seat_id with ⟨hg, he⟩ | ⟨hg, he⟩ | ⟨hg, he⟩ |
      ⟨v, hg, h1, h2, he⟩
    · rw [he] at h
      simp at h
    · rw [he] at h
      simp at h
    · rw [he] at h
      simp at h
    · rw [he] at h
      have hs : s = ⟨seatsSet st.seats seat_id "F", dbDeleteRef st.db v⟩ :=
        (congrArg Prod.fst h).symm
      exact ⟨v, hg, h1, h2, hs, fun r => dbDeleteRef_mem⟩
  · intro st seat_id ref hget h1 h2
    exact free_seat_of_booked hget h1 h2
  · intro st seat_id hget
    exact free_seat_of_free hget
  · intro st seat_id hget
    exact free_seat_of_storage hget
  · intro st seat_id hget
    exact free_seat_of_notFound hget

theorem claim_C5_witness :
    free_seat ⟨[("1A", "AAAAAAAA")], [⟨"AAAAAAAA", "p", "f", "l", 1, "A", "1A"⟩]⟩
        "1A" =
      (⟨seatsSet [("1A", "AAAAAAAA")] "1A" "F",
        dbDeleteRef [⟨"AAAAAAAA", "p", "f", "l", 1, "A", "1A"⟩] "AAAAAAAA"⟩,
        .success) ∧
    free_seat ⟨[("1A", "F")], []⟩ "1A" = (⟨[("1A", "F")], []⟩, .alreadyFree) ∧
    free_seat ⟨[("77D", "S")], []⟩ "77D" =
      (⟨[("77D", "S")], []⟩, .storageArea) ∧
    free_seat ⟨[("1A", "F")], []⟩ "9Z" = (⟨[("1A", "F")], []⟩, .notFound) := by
  exact ⟨claim_C5.2.1 ⟨[("1A", "AAAAAAAA")],
      [⟨"AAAAAAAA", "p", "f", "l", 1, "A", "1A"⟩]⟩ "1A" "AAAAAAAA"
      (by decide) (by decide) (by decide),
    claim_C5.2.2.1 ⟨[("1A", "F")], []⟩ "1A" (by decide),
    claim_C5.2.2.2.1 ⟨[("77D", "S")], []⟩ "77D" (by decide),
    claim_C5.2.2.2.2 ⟨[("1A", "F")], []⟩ "9Z" (by decide)⟩

/-- C6: booking a free seat and then freeing it restores both the seat
and the persisted record set to exactly what they were before. -/
theorem claim_C6 {st : SysState} {seat_id : String} {info : PassengerInfo}
    {stream : List (Fin 8 → Fin 36)} {ref : String} {n : Nat}
    {db1 : List BookingRecord}
    (hnd : (st.seats.map Prod.fst).Nodup)
    (hget : seatsGet st.seats seat_id = some "F")
    (hgen : generate_booking_ref st.db stream = some ref)
    (hrow : parseRow (seat_id.dropRight 1) = some n)
    (hins : dbInsert st.db (bookRecord ref info n seat_id) = some db1) :
    book_seat st seat_id info stream =
      some (⟨seatsSet st.seats seat_id ref, db1⟩, .success ref) ∧
    free_seat ⟨seatsSet st.seats seat_id ref, db1⟩ seat_id = (st, .success) := by
  have hgr := generate_booking_ref_spec hgen
  obtain ⟨hdb1, hfresh, hsid⟩ := dbInsert_eq_some hins
  refine ⟨book_seat_of_success hget hgen hrow hins, ?_⟩
  have hget1 : seatsGet (seatsSet st.seats seat_id ref) seat_id = some ref :=
    seatsGet_seatsSet_self _ _ _
  rw [free_seat_of_booked hget1 (goodRef_ne_F hgr.1) (goodRef_ne_S hgr.1)]
  have hstate : (⟨seatsSet (seatsSet st.seats seat_id ref) seat_id "F",
      dbDeleteRef db1 ref⟩ : SysState) = st := by
    rw [seatsSet_seatsSet, seatsSet_eq_self hnd hget, hdb1,
      dbDeleteRef_append_fresh (show ref ∉ dbRefs st.db from hfresh) rfl]
  rw [hstate]

theorem claim_C6_witness :
    book_seat ⟨[("1A", "F")], []⟩ "1A" ⟨"p", "f", "l"⟩ [fun x => 0] =
      some (⟨seatsSet [("1A", "F")] "1A" "AAAAAAAA",
        [⟨"AAAAAAAA", "p", "f", "l", 1, "A", "1A"⟩]⟩, .success "AAAAAAAA") ∧
    free_seat ⟨seatsSet [("1A", "F")] "1A" "AAAAAAAA",
        [⟨"AAAAAAAA", "p", "f", "l", 1, "A", "1A"⟩]⟩ "1A" =
      (⟨[("1A", "F")], []⟩, .success) := by
  have hgen : generate_booking_ref ([] : List BookingRecord)
      [fun x => (0 : Fin 36)] = some "AAAAAAAA" := by decide
  have hrow : parseRow ("1A".dropRight 1) = some 1 := by decide
  exact claim_C6 (by decide) (by decide) hgen hrow (by decide)

/-- C7: a returned reference is 8 characters over uppercase letters and
digits and is fresh with respect to the persisted references; and in
every reachable state the persisted references are pairwise distinct. -/
theorem claim_C7 :
    (∀ (db : List BookingRecord) (stream : List (Fin 8 → Fin 36))
        (ref : String),
      generate_booking_ref db stream = some ref →
      ref.length = 8 ∧ (∀ c ∈ ref.data, c ∈ refAlphabet) ∧ ref ∉ dbRefs db) ∧
    (∀ st : SysState, Reachable st → (dbRefs st.db).Nodup) := by
  constructor
  · intro db stream ref h
    obtain ⟨⟨h1, h2⟩, h3⟩ := generate_booking_ref_spec h
    exact ⟨h1, h2, h3⟩
  · intro st h
    exact (reachable_inv h).refs_nodup

theorem claim_C7_witness :
    ("AAAAAAAA" : String).length = 8 ∧
    ("AAAAAAAA" : String) ∉ dbRefs [] ∧
    (dbRefs initState.db).Nodup := by
  have hgen : generate_booking_ref ([] : List BookingRecord)
      [fun x => (0 : Fin 36)] = some "AAAAAAAA" := by decide
  have h := claim_C7.1 [] [fun x => (0 : Fin 36)] "AAAAAAAA" hgen
  exact ⟨h.1, h.2.2, claim_C7.2 initState Reachable.start⟩

/-- C8: initialization populates exactly the layout's seat identifiers
(each exactly once), front seats and non-storage rear seats free, rear
rows 77–78 storage; and the initialization loops are deterministic and
idempotent: replayed on an empty dictionary they rebuild `initSeats`,
replayed on the already-initialized dictionary they change nothing. -/
theorem claim_C8 :
    initSeats.map Prod.fst = layoutKeys ∧
    layoutKeys.Nodup ∧
    (∀ row ∈ front_rows, ∀ col ∈ front_columns,
      seatsGet initSeats (seatIdStr row col) = some "F") ∧
    (∀ row ∈ rear_rows, ∀ col ∈ rear_columns,
      seatsGet initSeats (seatIdStr row col) =
        some (if row = 77 ∨ row = 78 then "S" else "F")) ∧
    applyAssigns [] initSeats = initSeats ∧
    applyAssigns initSeats initSeats = initSeats := by
  refine ⟨initSeats_keys, layoutKeys_nodup, ?_, ?_, ?_, ?_⟩
  · intro row hrow col hcol
    have hp : (seatIdStr row col, "F") ∈ initSeats :=
      List.mem_append_left _
        (List.mem_flatMap.2 ⟨row, hrow, List.mem_map.2 ⟨col, hcol, rfl⟩⟩)
    exact seatsGet_of_mem_nodup initSeats_keys_nodup hp
  · intro row hrow col hcol
    have hp : (seatIdStr row col, if row = 77 ∨ row = 78 then "S" else "F") ∈
        initSeats :=
      List.mem_append_right _
        (List.mem_flatMap.2 ⟨row, hrow, List.mem_map.2 ⟨col, hcol, rfl⟩⟩)
    exact seatsGet_of_mem_nodup initSeats_keys_nodup hp
  · refine applyAssigns_fresh ?_ initSeats_keys_nodup
    intro k _ hk
    cases hk
  · refine applyAssigns_idem initSeats_keys_nodup ?_
    intro p hp
    exact seatsGet_of_mem_nodup initSeats_keys_nodup hp

theorem claim_C8_witness :
    seatsGet initSeats (seatIdStr 1 'A') = some "F" ∧
    seatsGet initSeats (seatIdStr 77 'D') =
      some (if (77 : Nat) = 77 ∨ (77 : Nat) = 78 then "S" else "F") := by
  exact ⟨claim_C8.2.2.1 1 (by decide) 'A' (by decide),
    claim_C8.2.2.2.1 77 (by decide) 'D' (by decide)⟩

/-- C9: every ledger key's row prefix parses as an integer, so in any
reachable state a terminating Book never takes the invalid-row branch. -/
theorem claim_C9 :
    (∀ k ∈ initSeats.map Prod.fst, (parseRow (k.dropRight 1)).isSome = true) ∧
    (∀ st : SysState, Reachable st →
      ∀ (seat_id : String) (info : PassengerInfo)
        (stream : List (Fin 8 → Fin 36)) (res : SysState × BookOutcome),
        book_seat st seat_id info stream = some res → res.2 ≠ .invalidRow) := by
  have hparse : ∀ k ∈ initSeats.map Prod.fst,
      (parseRow (k.dropRight 1)).isSome = true := by decide
  refine ⟨hparse, ?_⟩
  intro st hst seat_id info stream res h
  rcases book_seat_cases h with ⟨hg, he⟩ | ⟨hg, he⟩ | ⟨v, hg, h1, h2, he⟩ |
    ⟨r0, hg, hgen, hrow, he⟩ | ⟨r0, n0, d0, hg, hgen, hrow, hins, he⟩ |
    ⟨r0, n0, hg, hgen, hrow, hins, he⟩
  · subst he
    simp
  · subst he
    simp
  · subst he
    simp
  · have hmem : seat_id ∈ st.seats.map Prod.fst := seatsGet_mem_keys hg
    rw [(reachable_inv hst).keys_eq] at hmem
    have hk := hparse seat_id hmem
    rw [hrow] at hk
    cases hk
  · subst he
    simp
  · subst he
    simp

theorem claim_C9_witness :
    (parseRow ("1A".dropRight 1)).isSome = true ∧
    ((initState, BookOutcome.notFound) : SysState × BookOutcome).2 ≠
      .invalidRow := by
  have hmem : ("1A" : String) ∈ initSeats.map Prod.fst := by decide
  have hb : book_seat initState "99Z" ⟨"p", "f", "l"⟩ [] =
      some (initState, .notFound) :=
    book_seat_of_notFound ⟨"p", "f", "l"⟩ []
      (show seatsGet initState.seats "99Z" = none from rfl)
  exact ⟨claim_C9.1 "1A" hmem,
    claim_C9.2 initState Reachable.start "99Z" ⟨"p", "f", "l"⟩ []
      (initState, .notFound) hb⟩

/-- C10: in any reachable state every stored seat value is the free tag,
the storage tag, or an 8-character reference over the generation
alphabet (in particular never equal to the 1-character tags), and the
not-"F"-not-"S" decoding used by the operations classifies it
correctly. -/
theorem claim_C10 {st : SysState} (hst : Reachable st) (seat_id : String)
    (v : SeatVal) (hget : seatsGet st.seats seat_id = some v) :
    (v = "F" ∧ check_availability st seat_id = .free) ∨
    (v = "S" ∧ check_availability st seat_id = .storage) ∨
    (v.length = 8 ∧ (∀ c ∈ v.data, c ∈ refAlphabet) ∧ v ≠ "F" ∧ v ≠ "S" ∧
      check_availability st seat_id = .booked v) := by
  have hinv := reachable_inv hst
  have hp : v = "F" ∨ v = "S" ∨ goodRef v :=
    hinv.vals_ok (seat_id, v) (seatsGet_mem hget)
  rcases hp with h | h | h
  · left
    refine ⟨h, ?_⟩
    simp [check_availability, hget, h]
  · right
    left
    refine ⟨h, ?_⟩
    simp [check_availability, hget, h]
  · right
    right
    have hF := goodRef_ne_F h
    have hS := goodRef_ne_S h
    refine ⟨h.1, h.2, hF, hS, ?_⟩
    simp [check_availability, hget, hF, hS]

theorem claim_C10_witness :
    (("S" : SeatVal) = "F" ∧ check_availability initState "77D" = .free) ∨
    (("S" : SeatVal) = "S" ∧ check_availability initState "77D" = .storage) ∨
    (("S" : SeatVal).length = 8 ∧ (∀ c ∈ ("S" : SeatVal).data, c ∈ refAlphabet) ∧
      ("S" : SeatVal) ≠ "F" ∧ ("S" : SeatVal) ≠ "S" ∧
      check_availability initState "77D" = .booked "S") :=
  claim_C10 Reachable.start "77D" "S" (initSeats_storage "77D" (by decide))

end Seating
